import Mathlib

/-!
Verification of the job-tracker backend (src/main.py, src/schemas.py).

The repository is a FastAPI CRUD service over a single MongoDB collection
"jobapplication".  We shallow-embed the validation layer (pydantic models in
src/schemas.py and the inline models of src/main.py) and the four request
handlers of src/main.py together with the store operations they invoke.

Modelling conventions:
* A stored document is an association list `List (String × Value)` mirroring a
  BSON document (python dict); key order is insertion order, as in python.
* The mongo database handle `db` of src/main.py is `Option Db` where
  `Db := List Doc` is the single collection "jobapplication"; `none` models an
  unconfigured store (`db is None`).
* `datetime.utcnow()` is modelled by an explicit `now : Nat` parameter
  (seconds since the Unix epoch); `isoformat` is implemented on it.
* The file database.py is imported by src/main.py but is not part of src/;
  its two functions `create_document` and `get_documents` are modelled from
  the spec (section 6 store contract) and carry doc comments saying so.
* JSON numbers are modelled as `Int`; no claim depends on fractional values.
-/

deriving instance DecidableEq for Except

/-- Two-digit zero padding used by the ISO-8601 rendering of timestamps. -/
def pad2 (n : Nat) : String :=
  if n < 10 then "0" ++ toString n else toString n

/-- Civil date (year, month, day) from a count of days since 1970-01-01,
following the standard Gregorian days-to-civil computation. -/
def civilFromDays (z0 : Nat) : Nat × Nat × Nat :=
  let z := z0 + 719468
  let era := z / 146097
  let doe := z % 146097
  let yoe := (doe - doe / 1460 + doe / 36524 - doe / 146096) / 365
  let y := yoe + era * 400
  let doy := doe - (365 * yoe + yoe / 4 - yoe / 100)
  let mp := (5 * doy + 2) / 153
  let d := doy - (153 * mp + 2) / 5 + 1
  let m := if mp < 10 then mp + 3 else mp - 9
  (if m ≤ 2 then y + 1 else y, m, d)

/-- Model of `datetime.isoformat()` for a `datetime.utcnow()` value, the
timestamp being seconds since the Unix epoch. -/
def datetimeToIso (t : Nat) : String :=
  let days := t / 86400
  let secs := t % 86400
  let c := civilFromDays days
  toString c.1 ++ "-" ++ pad2 c.2.1 ++ "-" ++ pad2 c.2.2 ++ "T" ++
    pad2 (secs / 3600) ++ ":" ++ pad2 (secs % 3600 / 60) ++ ":" ++ pad2 (secs % 60)

/-- Hexadecimal digit, as accepted by `bson.ObjectId`. -/
def isHexChar (c : Char) : Bool :=
  c.isDigit || ('a' ≤ c && c ≤ 'f') || ('A' ≤ c && c ≤ 'F')

/-- Validity of a string as a `bson.ObjectId`: a 24 character hex string
(the canonical text form produced by the store). -/
def isValidOid (s : String) : Bool :=
  s.toList.length = 24 && s.toList.all isHexChar

/-- Lower-casing of a string, character by character. -/
def lowerStr (s : String) : String :=
  ⟨s.toList.map Char.toLower⟩

/-- Model of the `bson.ObjectId` constructor on a string argument: it accepts
exactly 24 character hex strings, normalising to lower case, and raises
`InvalidId` otherwise (modelled as `none`). -/
def parseObjectId (s : String) : Option String :=
  if isValidOid s then some (lowerStr s) else none

/-- Detail string of the exception raised by `ObjectId` on an invalid input,
as stringified by the `except` clauses of src/main.py. -/
def invalidOidMsg (s : String) : String :=
  s ++ " is not a valid ObjectId"

/-- JSON values as sent in request bodies, restricted to the fragment the two
schemas can consume: the only array-typed field is `tags : List[str]`, so
arrays carry strings. -/
inductive Json where
  | null : Json
  | str (s : String) : Json
  | num (n : Int) : Json
  | bool (b : Bool) : Json
  | arr (xs : List String) : Json
  deriving Repr, DecidableEq

/-- BSON values as stored in the collection (the fragment the app produces):
strings, numbers, datetimes, arrays of strings (tags), nulls, and ObjectIds. -/
inductive Value where
  | null : Value
  | str (s : String) : Value
  | num (n : Int) : Value
  | dt (t : Nat) : Value
  | arr (xs : List String) : Value
  | oid (s : String) : Value
  deriving Repr, DecidableEq

/-- A stored document: an association list mirroring a python dict / BSON
document, key order being insertion order. -/
abbrev Doc := List (String × Value)

/-- The "jobapplication" collection of the store. -/
abbrev Db := List Doc

/-- Key lookup in an association list (python `d.get(k)` / `raw.get(k)`). -/
def lookupKey {β : Type} : List (String × β) → String → Option β
  | [], _ => none
  | (k', v) :: rest, k => if k' = k then some v else lookupKey rest k

/-- Key removal (python `d.pop(k)` dropping the entry). -/
def eraseKey (d : Doc) (k : String) : Doc :=
  d.filter (fun kv => kv.1 ≠ k)

/-- Dict assignment `d[k] = v`: replaces the value of the key in place when
the key is present (keys of a python dict are unique, so replacing the first
binding is replacing the binding), appends the entry at the end otherwise. -/
def setKey : Doc → String → Value → Doc
  | [], k, v => [(k, v)]
  | (a, b) :: rest, k, v =>
    if a = k then (k, v) :: rest else (a, b) :: setKey rest k v

/-- Sequential dict assignments, in the given order (model of applying a
mongo `$set` document). -/
def setKeys (d : Doc) (kvs : List (String × Value)) : Doc :=
  kvs.foldl (fun acc kv => setKey acc kv.1 kv.2) d

/-- Python truthiness of a BSON value, as used by `if d.get("_id")` in
`to_public` (src/main.py line 137). -/
def truthyV : Option Value → Bool
  | none => false
  | some .null => false
  | some (.str s) => s ≠ ""
  | some (.num n) => n ≠ 0
  | some (.dt _) => true
  | some (.arr xs) => xs ≠ []
  | some (.oid _) => true

/-- Python `str()` on a BSON value; in `to_public` it is only ever applied to
the popped `_id`, an ObjectId, whose text form is its hex string. -/
def pyStr : Value → String
  | .null => "None"
  | .str s => s
  | .num n => toString n
  | .dt t => datetimeToIso t
  | .arr xs => toString xs
  | .oid s => s

/-- Conversion applied to every value of a public document: datetimes become
their `isoformat()` text, everything else is untouched (the loop of
src/main.py lines 139-141). -/
def pubVal : Value → Value
  | .dt t => .str (datetimeToIso t)
  | v => v

/-- Model of `to_public` (src/main.py lines 135-142): copies the document,
sets `d["id"]` to `str(d.pop("_id"))` when `_id` is truthy (popping the
internal key) and to `None` otherwise (without popping), then converts every
datetime value to its `isoformat()` text. -/
def to_public (d : Doc) : Doc :=
  let d1 : Doc :=
    if truthyV (lookupKey d "_id") then
      match lookupKey d "_id" with
      | some v => setKey (eraseKey d "_id") "id" (.str (pyStr v))
      | none => setKey d "id" .null
    else
      setKey d "id" .null
  d1.map (fun kv => (kv.1, pubVal kv.2))

/-- HTTP error as raised by `HTTPException(status_code, detail)`. -/
structure HTTPError where
  status : Nat
  detail : String
  deriving Repr, DecidableEq

/-! ## The mongo regex search used by the list endpoint

The list handler (src/main.py lines 152-159) puts the raw query `q` into
mongo conditions of the shape `\x7b"$regex": q, "$options": "i"\x7d`.  The
store evaluates them as a case-insensitive, unanchored regular-expression
search.  The store is an external collaborator, so its matcher is modelled
here: we implement the PCRE fragment that the claims exercise — literal
characters and the any-character metacharacter `.` — and keep the full PCRE
metacharacter alphabet in `regexMeta` so that theorems about metacharacter
free queries are faithful to the real matcher (on such queries every engine
agrees with literal search). -/

/-- Case-insensitive equality of two characters (regex option "i"). -/
def lowerEq (a b : Char) : Bool :=
  a.toLower = b.toLower

/-- Match of one pattern character against one subject character: `.` matches
anything, anything else matches case-insensitively. -/
def regexCharMatch (p c : Char) : Bool :=
  p = '.' || lowerEq p c

/-- Match of a pattern against the beginning of the subject. -/
def regexMatchAt : List Char → List Char → Bool
  | [], _ => true
  | _ :: _, [] => false
  | p :: ps, c :: cs => regexCharMatch p c && regexMatchAt ps cs

/-- Unanchored regex search: the pattern matches at some position of the
subject (mongo `$regex` semantics). -/
def regexSearch (pat : List Char) : List Char → Bool
  | [] => regexMatchAt pat []
  | c :: cs => regexMatchAt pat (c :: cs) || regexSearch pat cs

/-- PCRE metacharacters: a query containing none of these is interpreted by
the store's regex engine as a literal string. -/
def regexMeta (c : Char) : Bool :=
  c = '.' || c = '*' || c = '+' || c = '?' || c = '[' || c = ']' ||
  c = '(' || c = ')' || c = '^' || c = '$' || c = '|' || c = '\\' ||
  c = '\x7b' || c = '\x7d'

/-! Spec-side text matching.  The spec (section 4.2) words the query semantics
as: the query "must match case-insensitively as a substring" of a field.
The following definitions are written from those words, to be compared with
the `$regex` filter the code actually builds. -/

/-- Case-insensitive prefix test (written from the spec's words). -/
def isPrefixCI : List Char → List Char → Bool
  | [], _ => true
  | _ :: _, [] => false
  | a :: as, b :: bs => lowerEq a b && isPrefixCI as bs

/-- Case-insensitive contiguous-substring test (written from the spec's
words: the needle occurs case-insensitively inside the haystack). -/
def isSubstrCI (q : List Char) : List Char → Bool
  | [] => isPrefixCI q []
  | c :: cs => isPrefixCI q (c :: cs) || isSubstrCI q cs

/-- Case-insensitive substring occurrence on strings (spec-side). -/
def substrCI (q s : String) : Bool :=
  isSubstrCI q.toList s.toList

/-! ## The list endpoint -/

/-- Filter document built by `list_applications` (src/main.py lines 149-159):
a `status` equality entry when the `status` parameter is truthy, and the
`$or` of the four regex conditions on `company`, `position`, `notes` and
`tags` when the `q` parameter is truthy. -/
structure MongoListFilter where
  status : Option String
  orRegex : Option String
  deriving Repr, DecidableEq

/-- Construction of the filter document, with python truthiness on the two
optional parameters (an empty string contributes nothing). -/
def buildListFilter (status q : Option String) : MongoListFilter :=
  { status := match status with
      | some s => if s = "" then none else some s
      | none => none
    orRegex := match q with
      | some s => if s = "" then none else some s
      | none => none }

/-- Evaluation of one regex condition on a scalar field: mongo matches only
when the field holds a string that the pattern is found in (a missing or
null field never matches a regex condition). -/
def fieldRegexMatch (d : Doc) (k : String) (q : String) : Bool :=
  match lookupKey d k with
  | some (.str s) => regexSearch q.toList s.toList
  | _ => false

/-- Evaluation of the built filter document on one stored document, per the
store's semantics: conjunction of the status equality (when present) and the
`$or` of the four regex conditions (when present); `$elemMatch` on `tags`
searches each array element. -/
def matchesFilter (f : MongoListFilter) (d : Doc) : Bool :=
  (match f.status with
    | none => true
    | some s => lookupKey d "status" == some (.str s)) &&
  (match f.orRegex with
    | none => true
    | some q =>
      fieldRegexMatch d "company" q || fieldRegexMatch d "position" q ||
      fieldRegexMatch d "notes" q ||
      (match lookupKey d "tags" with
        | some (.arr xs) => xs.any (fun s => regexSearch q.toList s.toList)
        | _ => false))

/-- Modelled from the spec: `get_documents` lives in database.py, which is
absent from src/; the spec's store contract (section 6) requires find-many
with a filter document and a limit, returning documents in store order.
Modelled as filtering the collection in order and truncating to the limit. -/
def get_documents (d : Db) (f : MongoListFilter) (limit : Nat) : List Doc :=
  (d.filter (matchesFilter f)).take limit

/-- Model of `list_applications` (src/main.py lines 145-161): HTTP 500 when
the store is unconfigured, otherwise the public forms of the documents the
filter selects, the result-count limit defaulting to 100. -/
def list_applications (db : Option Db) (status q : Option String)
    (limit : Nat := 100) : Except HTTPError (List Doc) :=
  match db with
  | none => .error ⟨500, "Database not configured"⟩
  | some d => .ok ((get_documents d (buildListFilter status q) limit).map to_public)

/-- HTTP status of a list response (FastAPI default 200 on success). -/
def listStatus (db : Option Db) (status q : Option String)
    (limit : Nat := 100) : Nat :=
  match list_applications db status q limit with
  | .ok _ => 200
  | .error e => e.status

/-! ## The validation layer (src/schemas.py and the models of src/main.py)

Pydantic validates each field of a request body independently and the model
construction succeeds exactly when every field validates.  Dates are ISO
`YYYY-MM-DD` strings in JSON; numeric fields are JSON numbers.  Error detail
text is collapsed to one opaque message (the claims never inspect it). -/

/-- A well-formed ISO calendar-date string `YYYY-MM-DD`, the JSON input
format `datetime.date` fields are parsed from. -/
def isIsoDate (s : String) : Bool :=
  match s.toList with
  | [y1, y2, y3, y4, '-', m1, m2, '-', d1, d2] =>
    [y1, y2, y3, y4, m1, m2, d1, d2].all Char.isDigit &&
      (10 * (m1.toNat - 48) + (m2.toNat - 48) ≥ 1) &&
      (10 * (m1.toNat - 48) + (m2.toNat - 48) ≤ 12) &&
      (10 * (d1.toNat - 48) + (d2.toNat - 48) ≥ 1) &&
      (10 * (d1.toNat - 48) + (d2.toNat - 48) ≤ 31)
  | _ => false

/-- The `JobApplication` pydantic model (src/schemas.py lines 45-68), after
validation: required `company` and `position`, `status` defaulting to
"applied", `priority` an optional defaulting to "medium", `tags` defaulting
to the empty list, dates kept in their ISO text form. -/
structure JobApplication where
  company : String
  position : String
  location : Option String := none
  job_link : Option String := none
  source : Option String := none
  status : String := "applied"
  applied_date : Option String := none
  follow_up_date : Option String := none
  salary_min : Option Int := none
  salary_max : Option Int := none
  contact_name : Option String := none
  contact_email : Option String := none
  resume_version : Option String := none
  priority : Option String := some "medium"
  tags : List String := []
  notes : Option String := none
  deriving Repr, DecidableEq

/-- The `CreateJobApplication` model of src/main.py lines 108-109 is the
`JobApplication` schema unchanged. -/
abbrev CreateJobApplication := JobApplication

/-- Validator of a required `str` field: the field must be present and be a
string (null is not accepted by a non-optional `str`). -/
def vReqStr (raw : List (String × Json)) (k : String) : Except String String :=
  match lookupKey raw k with
  | none => .error (k ++ ": field required")
  | some (.str s) => .ok s
  | some _ => .error (k ++ ": input should be a valid string")

/-- Validator of a `str` field with a default: absent yields the default,
null is rejected (the annotation is `str`, not `Optional[str]`). -/
def vStrD (raw : List (String × Json)) (k : String) (dflt : String) :
    Except String String :=
  match lookupKey raw k with
  | none => .ok dflt
  | some (.str s) => .ok s
  | some _ => .error (k ++ ": input should be a valid string")

/-- Validator of an `Optional[str]` field with default `None`: absent and
null both become `none`. -/
def vOptStr (raw : List (String × Json)) (k : String) :
    Except String (Option String) :=
  match lookupKey raw k with
  | none => .ok none
  | some .null => .ok none
  | some (.str s) => .ok (some s)
  | some _ => .error (k ++ ": input should be a valid string")

/-- Validator of an `Optional[str]` field with a non-None default (the
`priority` field): absent yields the default, null yields `none`. -/
def vOptStrD (raw : List (String × Json)) (k : String) (dflt : String) :
    Except String (Option String) :=
  match lookupKey raw k with
  | none => .ok (some dflt)
  | some .null => .ok none
  | some (.str s) => .ok (some s)
  | some _ => .error (k ++ ": input should be a valid string")

/-- Validator of an `Optional[date]` field: absent and null become `none`; a
string must parse as an ISO calendar date. -/
def vDate (raw : List (String × Json)) (k : String) :
    Except String (Option String) :=
  match lookupKey raw k with
  | none => .ok none
  | some .null => .ok none
  | some (.str s) =>
    if isIsoDate s then .ok (some s)
    else .error (k ++ ": input is not a valid date")
  | some _ => .error (k ++ ": input is not a valid date")

/-- Validator of an `Optional[float]` field constrained `ge=0` (the two
salary fields of the create schema). -/
def vSalary (raw : List (String × Json)) (k : String) :
    Except String (Option Int) :=
  match lookupKey raw k with
  | none => .ok none
  | some .null => .ok none
  | some (.num n) =>
    if 0 ≤ n then .ok (some n)
    else .error (k ++ ": input should be greater than or equal to 0")
  | some _ => .error (k ++ ": input should be a valid number")

/-- Validator of the `tags : List[str]` field with default `[]`: absent
yields the empty list, null is rejected (the annotation is not optional). -/
def vTags (raw : List (String × Json)) (k : String) :
    Except String (List String) :=
  match lookupKey raw k with
  | none => .ok []
  | some (.arr xs) => .ok xs
  | some _ => .error (k ++ ": input should be a valid list")

/-- Validation of a create request body against the `JobApplication` schema:
every field validates independently and construction succeeds exactly when
all of them do (pydantic collects the failures; the combined detail text is
collapsed to one opaque message). -/
def parseCreate (raw : List (String × Json)) : Except String JobApplication :=
  match vReqStr raw "company", vReqStr raw "position", vOptStr raw "location",
      vOptStr raw "job_link", vOptStr raw "source", vStrD raw "status" "applied",
      vDate raw "applied_date", vDate raw "follow_up_date",
      vSalary raw "salary_min", vSalary raw "salary_max",
      vOptStr raw "contact_name", vOptStr raw "contact_email",
      vOptStr raw "resume_version", vOptStrD raw "priority" "medium",
      vTags raw "tags", vOptStr raw "notes" with
  | .ok c, .ok p, .ok lo, .ok jl, .ok so, .ok st, .ok ad, .ok fd, .ok smin,
      .ok smax, .ok cn, .ok ce, .ok rv, .ok pr, .ok tg, .ok no =>
    .ok ⟨c, p, lo, jl, so, st, ad, fd, smin, smax, cn, ce, rv, pr, tg, no⟩
  | _, _, _, _, _, _, _, _, _, _, _, _, _, _, _, _ =>
    .error "validation error"

/-- The `UpdateJobApplication` model (src/main.py lines 112-128): every field
`Optional` with default `None`.  After pydantic validation a field holds
`none` both when it was absent from the payload and when it was explicitly
sent as null. -/
structure UpdateJobApplication where
  company : Option String := none
  position : Option String := none
  location : Option String := none
  job_link : Option String := none
  source : Option String := none
  status : Option String := none
  applied_date : Option String := none
  follow_up_date : Option String := none
  salary_min : Option Int := none
  salary_max : Option Int := none
  contact_name : Option String := none
  contact_email : Option String := none
  resume_version : Option String := none
  priority : Option String := none
  tags : Option (List String) := none
  notes : Option String := none
  deriving Repr, DecidableEq

/-- Validator of an `Optional[float]` field of the update model — unlike the
create schema it carries no `ge=0` bound (src/main.py lines 121-122). -/
def vUNum (raw : List (String × Json)) (k : String) :
    Except String (Option Int) :=
  match lookupKey raw k with
  | none => .ok none
  | some .null => .ok none
  | some (.num n) => .ok (some n)
  | some _ => .error (k ++ ": input should be a valid number")

/-- Validator of the `Optional[List[str]]` tags field of the update model. -/
def vUTags (raw : List (String × Json)) (k : String) :
    Except String (Option (List String)) :=
  match lookupKey raw k with
  | none => .ok none
  | some .null => .ok none
  | some (.arr xs) => .ok (some xs)
  | some _ => .error (k ++ ": input should be a valid list")

/-- Validation of an update request body against `UpdateJobApplication`.  In
the update model the two date fields are annotated `Optional[str]`, so they
are validated as plain optional strings. -/
def parseUpdate (raw : List (String × Json)) :
    Except String UpdateJobApplication :=
  match vOptStr raw "company", vOptStr raw "position", vOptStr raw "location",
      vOptStr raw "job_link", vOptStr raw "source", vOptStr raw "status",
      vOptStr raw "applied_date", vOptStr raw "follow_up_date",
      vUNum raw "salary_min", vUNum raw "salary_max",
      vOptStr raw "contact_name", vOptStr raw "contact_email",
      vOptStr raw "resume_version", vOptStr raw "priority",
      vUTags raw "tags", vOptStr raw "notes" with
  | .ok c, .ok p, .ok lo, .ok jl, .ok so, .ok st, .ok ad, .ok fd, .ok smin,
      .ok smax, .ok cn, .ok ce, .ok rv, .ok pr, .ok tg, .ok no =>
    .ok ⟨c, p, lo, jl, so, st, ad, fd, smin, smax, cn, ce, rv, pr, tg, no⟩
  | _, _, _, _, _, _, _, _, _, _, _, _, _, _, _, _ =>
    .error "validation error"

/-! ## The create endpoint -/

/-- BSON value of an optional field when a model is dumped for insertion:
`None` is stored as null. -/
def optV {α : Type} (f : α → Value) : Option α → Value
  | none => .null
  | some x => f x

/-- JSON-mode dump of a validated `JobApplication` for insertion, fields in
declaration order, dates already in their ISO text form. -/
def modelToDoc (m : JobApplication) : Doc :=
  [("company", .str m.company), ("position", .str m.position),
   ("location", optV .str m.location), ("job_link", optV .str m.job_link),
   ("source", optV .str m.source), ("status", .str m.status),
   ("applied_date", optV .str m.applied_date),
   ("follow_up_date", optV .str m.follow_up_date),
   ("salary_min", optV .num m.salary_min), ("salary_max", optV .num m.salary_max),
   ("contact_name", optV .str m.contact_name),
   ("contact_email", optV .str m.contact_email),
   ("resume_version", optV .str m.resume_version),
   ("priority", optV .str m.priority), ("tags", .arr m.tags),
   ("notes", optV .str m.notes)]

/-- Modelled from the spec: `create_document` lives in database.py, which is
absent from src/; the spec's store contract (section 6) requires insert-one
returning the store-assigned identifier.  The assigned ObjectId is supplied
as the `newOid` parameter; the function appends the dumped document and
returns the identifier's text form. -/
def create_document (d : Db) (newOid : String) (m : JobApplication) :
    String × Db :=
  (newOid, d ++ [("_id", Value.oid newOid) :: modelToDoc m])

/-- First document of the collection whose `_id` equals the given ObjectId
(mongo `find_one` on an `_id` filter). -/
def findOne (d : Db) (oid : String) : Option Doc :=
  d.find? (fun doc => lookupKey doc "_id" == some (.oid oid))

/-- Model of `create_application` (src/main.py lines 164-173): no store
configuration check; the whole insert-and-fetch step is wrapped in a single
`except Exception` that re-raises as HTTP 400 with the stringified exception
as detail.  When the store handle is `None`, subscripting it raises a
`TypeError`, caught by that clause. -/
def create_application (db : Option Db) (newOid : String)
    (m : JobApplication) : Except HTTPError Doc × Option Db :=
  match db with
  | none => (.error ⟨400, "NoneType object is not subscriptable"⟩, none)
  | some d =>
    let r := create_document d newOid m
    match parseObjectId r.1 with
    | none => (.error ⟨400, invalidOidMsg r.1⟩, some r.2)
    | some oid =>
      match findOne r.2 oid with
      | some doc => (.ok (to_public doc), some r.2)
      | none => (.error ⟨400, "argument of type NoneType is not iterable"⟩, some r.2)

/-- Modelled from the spec: the framework boundary (excluded from the spec's
scope as an external collaborator) validates the request body against the
create schema before invoking the handler and surfaces a schema
ValidationError as an HTTP 400 error response. -/
def create_endpoint (db : Option Db) (newOid : String)
    (raw : List (String × Json)) : Except HTTPError Doc × Option Db :=
  match parseCreate raw with
  | .error e => (.error ⟨400, e⟩, db)
  | .ok m => create_application db newOid m

/-- HTTP status of a create response (the decorator sets 201 on success). -/
def createStatus (db : Option Db) (newOid : String) (m : JobApplication) : Nat :=
  match (create_application db newOid m).1 with
  | .ok _ => 201
  | .error e => e.status

/-! ## The update endpoint -/

/-- Entry contributed to `model_dump(exclude_none=True)` by one field: set
fields contribute their key and value, unset fields contribute nothing. -/
def optEntry {α : Type} (k : String) (f : α → Value) :
    Option α → List (String × Value)
  | none => []
  | some x => [(k, f x)]

/-- Model of `payload.model_dump(exclude_none=True)` (src/main.py line 181):
the association list of the fields that hold a value, in field declaration
order. -/
def UpdateJobApplication.toDict (p : UpdateJobApplication) :
    List (String × Value) :=
  optEntry "company" .str p.company ++
    (optEntry "position" .str p.position ++
    (optEntry "location" .str p.location ++
    (optEntry "job_link" .str p.job_link ++
    (optEntry "source" .str p.source ++
    (optEntry "status" .str p.status ++
    (optEntry "applied_date" .str p.applied_date ++
    (optEntry "follow_up_date" .str p.follow_up_date ++
    (optEntry "salary_min" .num p.salary_min ++
    (optEntry "salary_max" .num p.salary_max ++
    (optEntry "contact_name" .str p.contact_name ++
    (optEntry "contact_email" .str p.contact_email ++
    (optEntry "resume_version" .str p.resume_version ++
    (optEntry "priority" .str p.priority ++
    (optEntry "tags" .arr p.tags ++
    (optEntry "notes" .str p.notes ++ [])))))))))))))))

/-- Field names of the update model, in declaration order. -/
def updateFieldNames : List String :=
  ["company", "position", "location", "job_link", "source", "status",
   "applied_date", "follow_up_date", "salary_min", "salary_max",
   "contact_name", "contact_email", "resume_version", "priority", "tags",
   "notes"]

/-- Replacement of the first document whose `_id` matches by its `$set`
update (the document-modifying half of mongo `update_one`). -/
def updateFirst (d : Db) (oid : String) (kvs : List (String × Value)) : Db :=
  match d with
  | [] => []
  | doc :: rest =>
    if lookupKey doc "_id" == some (.oid oid) then setKeys doc kvs :: rest
    else doc :: updateFirst rest oid kvs

/-- Mongo `update_one` on an `_id` filter with a `$set` document: `none`
models `matched_count == 0`, otherwise the new collection state. -/
def updateOne (d : Db) (oid : String) (kvs : List (String × Value)) :
    Option Db :=
  if d.any (fun doc => lookupKey doc "_id" == some (.oid oid)) then
    some (updateFirst d oid kvs)
  else none

/-- Model of `update_application` (src/main.py lines 176-193): HTTP 500 when
the store is unconfigured; HTTP 400 before any store operation when the
dumped payload has zero fields set; HTTP 400 when the identifier fails
ObjectId parsing; HTTP 404 when no document matched; otherwise `$set` of the
set fields plus `updated_at = now`, returning the refreshed public form. -/
def update_application (db : Option Db) (now : Nat) (app_id : String)
    (p : UpdateJobApplication) : Except HTTPError Doc × Option Db :=
  match db with
  | none => (.error ⟨500, "Database not configured"⟩, none)
  | some d =>
    if p.toDict.isEmpty then (.error ⟨400, "No fields to update"⟩, some d)
    else
      match parseObjectId app_id with
      | none => (.error ⟨400, invalidOidMsg app_id⟩, some d)
      | some oid =>
        let kvs := p.toDict ++ [("updated_at", Value.dt now)]
        match updateOne d oid kvs with
        | none => (.error ⟨404, "Application not found"⟩, some d)
        | some d' =>
          match findOne d' oid with
          | some doc => (.ok (to_public doc), some d')
          | none => (.error ⟨400, "argument of type NoneType is not iterable"⟩, some d')

/-- HTTP status of an update response (FastAPI default 200 on success). -/
def updateStatus (db : Option Db) (now : Nat) (app_id : String)
    (p : UpdateJobApplication) : Nat :=
  match (update_application db now app_id p).1 with
  | .ok _ => 200
  | .error e => e.status

/-! ## The delete endpoint -/

/-- Removal of the first document whose `_id` matches (the state half of
mongo `delete_one` on an `_id` filter). -/
def deleteFirst (d : Db) (oid : String) : Db :=
  match d with
  | [] => []
  | doc :: rest =>
    if lookupKey doc "_id" == some (.oid oid) then rest
    else doc :: deleteFirst rest oid

/-- Model of `delete_application` (src/main.py lines 196-208): HTTP 500 when
the store is unconfigured; HTTP 400 when the identifier fails ObjectId
parsing; HTTP 404 when `deleted_count == 0`; otherwise removal with an empty
response body. -/
def delete_application (db : Option Db) (app_id : String) :
    Except HTTPError Unit × Option Db :=
  match db with
  | none => (.error ⟨500, "Database not configured"⟩, none)
  | some d =>
    match parseObjectId app_id with
    | none => (.error ⟨400, invalidOidMsg app_id⟩, some d)
    | some oid =>
      if d.any (fun doc => lookupKey doc "_id" == some (.oid oid)) then
        (.ok (), some (deleteFirst d oid))
      else
        (.error ⟨404, "Application not found"⟩, some d)

/-- HTTP status of a delete response (the decorator sets 204 on success). -/
def deleteStatus (db : Option Db) (app_id : String) : Nat :=
  match (delete_application db app_id).1 with
  | .ok _ => 204
  | .error e => e.status

/-! ## Public-form and well-formedness predicates -/

/-- No datetime values remain in the document. -/
def noDt (d : Doc) : Bool :=
  d.all (fun kv => match kv.2 with | .dt _ => false | _ => true)

/-- Public form of a response document: the internal `_id` key is gone, the
`id` key holds non-empty text, and no raw datetime value remains. -/
def isPublicB (d : Doc) : Bool :=
  lookupKey d "_id" == none &&
  (match lookupKey d "id" with
    | some (.str s) => s ≠ ""
    | _ => false) &&
  noDt d

/-- Well-formed collection: every stored document carries a store-assigned
ObjectId under `_id` (ObjectIds are never empty). -/
def wfDb (d : Db) : Bool :=
  d.all (fun doc =>
    match lookupKey doc "_id" with
    | some (.oid s) => s ≠ ""
    | _ => false)

/-! ## Spec-side query predicate (for the list endpoint claim)

Written from the spec's words (section 4.2): a document matches when the
query occurs case-insensitively as a substring of its `company`, `position`
or `notes` field, or of some element of its `tags` — a logical OR across the
four — ANDed with exact equality on the `status` filter when one is
supplied. -/

/-- Spec-side match predicate of a list request on one stored document. -/
def specQueryMatches (status : Option String) (q : String) (d : Doc) : Bool :=
  (match status with
    | none => true
    | some s => lookupKey d "status" == some (.str s)) &&
  ((match lookupKey d "company" with
      | some (.str s) => substrCI q s
      | _ => false) ||
   (match lookupKey d "position" with
      | some (.str s) => substrCI q s
      | _ => false) ||
   (match lookupKey d "notes" with
      | some (.str s) => substrCI q s
      | _ => false) ||
   (match lookupKey d "tags" with
      | some (.arr xs) => xs.any (fun s => substrCI q s)
      | _ => false))

/-! ## Test fixtures used by the concrete theorems -/

/-- Test fixture: a store-assigned ObjectId. -/
def oidA : String := "aaaaaaaaaaaaaaaaaaaaaaaa"

/-- Test fixture: a second store-assigned ObjectId. -/
def oidB : String := "bbbbbbbbbbbbbbbbbbbbbbbb"

/-- Test fixture: a stored document of the collection. -/
def docAcme : Doc :=
  [("_id", .oid oidA), ("company", .str "Acme"), ("position", .str "Dev"),
   ("status", .str "applied"), ("tags", .arr [])]

/-- Test fixture: a stored document whose company is "xyz". -/
def docXyz : Doc :=
  [("_id", .oid oidB), ("company", .str "xyz"), ("position", .str "p"),
   ("status", .str "applied"), ("tags", .arr [])]

/-! ## Association-list lemmas -/

theorem lookupKey_setKey_self (d : Doc) (k : String) (v : Value) :
    lookupKey (setKey d k v) k = some v := by
  induction d with
  | nil => simp [setKey, lookupKey]
  | cons kv rest ih =>
    obtain ⟨a, b⟩ := kv
    by_cases hk : a = k
    · simp [setKey, hk, lookupKey]
    · simp [setKey, hk, lookupKey, ih]

theorem lookupKey_setKey_ne (d : Doc) (k k' : String) (v : Value)
    (hne : k' ≠ k) : lookupKey (setKey d k v) k' = lookupKey d k' := by
  induction d with
  | nil => simp [setKey, lookupKey, Ne.symm hne]
  | cons kv rest ih =>
    obtain ⟨a, b⟩ := kv
    by_cases hk : a = k
    · subst hk
      simp [setKey, lookupKey, Ne.symm hne]
    · by_cases hk' : a = k'
      · subst hk'
        simp [setKey, hk, lookupKey]
      · simp [setKey, hk, lookupKey, hk', ih]

theorem setKeys_nil (d : Doc) : setKeys d [] = d := rfl

theorem setKeys_cons (d : Doc) (a : String) (b : Value)
    (kvs : List (String × Value)) :
    setKeys d ((a, b) :: kvs) = setKeys (setKey d a b) kvs := rfl

theorem lookupKey_setKeys_not_mem (d : Doc) (kvs : List (String × Value))
    (k : String) (h : k ∉ kvs.map Prod.fst) :
    lookupKey (setKeys d kvs) k = lookupKey d k := by
  induction kvs generalizing d with
  | nil => rfl
  | cons kv rest ih =>
    simp only [List.map_cons, List.mem_cons, not_or] at h
    rw [setKeys_cons, ih (setKey d kv.1 kv.2) h.2,
      lookupKey_setKey_ne d kv.1 k kv.2 h.1]

theorem lookupKey_setKeys_mem (d : Doc) (kvs : List (String × Value))
    (k : String) (v : Value) (hnd : (kvs.map Prod.fst).Nodup)
    (hm : (k, v) ∈ kvs) : lookupKey (setKeys d kvs) k = some v := by
  induction kvs generalizing d with
  | nil => cases hm
  | cons kv rest ih =>
    simp only [List.map_cons, List.nodup_cons] at hnd
    obtain ⟨a, b⟩ := kv
    rcases List.mem_cons.mp hm with heq | hmem
    · injection heq with h1 h2
      subst h1
      subst h2
      rw [setKeys_cons, lookupKey_setKeys_not_mem _ _ _ hnd.1,
        lookupKey_setKey_self]
    · rw [setKeys_cons]
      exact ih (setKey d a b) hnd.2 hmem

theorem lookupKey_eraseKey_self (d : Doc) (k : String) :
    lookupKey (eraseKey d k) k = none := by
  induction d with
  | nil => rfl
  | cons kv rest ih =>
    obtain ⟨a, b⟩ := kv
    by_cases hk : a = k
    · subst hk
      simpa [eraseKey, List.filter_cons] using ih
    · simpa [eraseKey, List.filter_cons, hk, lookupKey] using ih

theorem lookupKey_eraseKey_ne (d : Doc) (k k' : String) (hne : k' ≠ k) :
    lookupKey (eraseKey d k) k' = lookupKey d k' := by
  induction d with
  | nil => rfl
  | cons kv rest ih =>
    obtain ⟨a, b⟩ := kv
    by_cases hk : a = k
    · subst hk
      simpa [eraseKey, List.filter_cons, lookupKey, Ne.symm hne] using ih
    · by_cases hk' : a = k'
      · subst hk'
        simp [eraseKey, List.filter_cons, hk, lookupKey]
      · simpa [eraseKey, List.filter_cons, hk, hk', lookupKey] using ih

theorem lookupKey_map_pubVal (d : Doc) (k : String) :
    lookupKey (d.map (fun kv => (kv.1, pubVal kv.2))) k =
      (lookupKey d k).map pubVal := by
  induction d with
  | nil => rfl
  | cons kv rest ih =>
    obtain ⟨a, b⟩ := kv
    by_cases hk : a = k
    · simp [lookupKey, hk]
    · simp [lookupKey, hk, ih]

theorem noDt_map_pubVal (d : Doc) :
    noDt (d.map (fun kv => (kv.1, pubVal kv.2))) = true := by
  induction d with
  | nil => rfl
  | cons kv rest ih =>
    have : (match pubVal kv.2 with | .dt _ => false | _ => true) = true := by
      cases kv.2 <;> simp [pubVal]
    simpa [noDt, List.all_cons, this] using ih

/-! ## Keys of a dumped update payload -/

theorem optEntry_keys_step {α : Type} (k : String) (f : α → Value)
    (v : Option α) (rest : List (String × Value)) (names : List String)
    (h : (rest.map Prod.fst).Sublist names) :
    (((optEntry k f v) ++ rest).map Prod.fst).Sublist (k :: names) := by
  cases v with
  | none => simpa [optEntry] using h.cons k
  | some x => simpa [optEntry] using h.cons₂ k

theorem toDict_keys_sublist (p : UpdateJobApplication) :
    (p.toDict.map Prod.fst).Sublist updateFieldNames := by
  unfold UpdateJobApplication.toDict updateFieldNames
  apply optEntry_keys_step
  apply optEntry_keys_step
  apply optEntry_keys_step
  apply optEntry_keys_step
  apply optEntry_keys_step
  apply optEntry_keys_step
  apply optEntry_keys_step
  apply optEntry_keys_step
  apply optEntry_keys_step
  apply optEntry_keys_step
  apply optEntry_keys_step
  apply optEntry_keys_step
  apply optEntry_keys_step
  apply optEntry_keys_step
  apply optEntry_keys_step
  apply optEntry_keys_step
  simp

theorem updateFieldNames_nodup : updateFieldNames.Nodup := by decide

theorem toDict_keys_nodup (p : UpdateJobApplication) :
    (p.toDict.map Prod.fst).Nodup :=
  (toDict_keys_sublist p).nodup updateFieldNames_nodup

theorem toDict_keys_mem (p : UpdateJobApplication) {k : String}
    (h : k ∈ p.toDict.map Prod.fst) : k ∈ updateFieldNames :=
  (toDict_keys_sublist p).subset h

theorem updated_at_not_mem_toDict (p : UpdateJobApplication) :
    "updated_at" ∉ p.toDict.map Prod.fst := by
  intro h
  have := toDict_keys_mem p h
  revert this
  decide

theorem id_key_not_mem_toDict (p : UpdateJobApplication) :
    "_id" ∉ p.toDict.map Prod.fst := by
  intro h
  have := toDict_keys_mem p h
  revert this
  decide

/-! ## ObjectId lemmas -/

theorem parseObjectId_ne_empty {s t : String} (h : parseObjectId s = some t) :
    t ≠ "" := by
  unfold parseObjectId at h
  split at h
  · rename_i hv
    injection h with h
    subst h
    simp only [isValidOid, Bool.and_eq_true, decide_eq_true_eq] at hv
    intro hemp
    have hdata : (lowerStr s).toList = [] := by rw [hemp]; rfl
    have : s.toList.map Char.toLower = [] := hdata
    have := List.map_eq_nil_iff.mp this
    rw [this] at hv
    simp at hv
  · cases h

/-! ## Public-form lemma for `to_public` -/

theorem to_public_of_oid {d : Doc} {s : String}
    (h : lookupKey d "_id" = some (.oid s)) :
    lookupKey (to_public d) "_id" = none ∧
    lookupKey (to_public d) "id" = some (.str s) ∧
    noDt (to_public d) = true := by
  have hid : "_id" ≠ "id" := by decide
  unfold to_public
  rw [h]
  simp only [truthyV, pyStr, if_true]
  refine ⟨?_, ?_, noDt_map_pubVal _⟩
  · rw [lookupKey_map_pubVal, lookupKey_setKey_ne _ _ _ _ hid,
      lookupKey_eraseKey_self]
    rfl
  · rw [lookupKey_map_pubVal, lookupKey_setKey_self]
    rfl

theorem isPublicB_to_public_of_oid {d : Doc} {s : String}
    (h : lookupKey d "_id" = some (.oid s)) (hs : s ≠ "") :
    isPublicB (to_public d) = true := by
  obtain ⟨h1, h2, h3⟩ := to_public_of_oid h
  simp [isPublicB, h1, h2, h3, hs]

/-! ## Store-operation lemmas -/

theorem findOne_cons_pos {doc : Doc} {oid : String} (rest : Db)
    (hp : (lookupKey doc "_id" == some (Value.oid oid)) = true) :
    findOne (doc :: rest) oid = some doc := by
  unfold findOne
  simp only [List.find?]
  rw [hp]

theorem findOne_cons_neg {doc : Doc} {oid : String} (rest : Db)
    (hp : (lookupKey doc "_id" == some (Value.oid oid)) = false) :
    findOne (doc :: rest) oid = findOne rest oid := by
  unfold findOne
  simp only [List.find?]
  rw [hp]

theorem findOne_some_pred {d : Db} {oid : String} {doc : Doc}
    (h : findOne d oid = some doc) :
    (lookupKey doc "_id" == some (Value.oid oid)) = true := by
  induction d with
  | nil => cases h
  | cons a rest ih =>
    by_cases hp : (lookupKey a "_id" == some (Value.oid oid)) = true
    · have h' : a = doc := Option.some.inj (by rwa [findOne_cons_pos rest hp] at h)
      exact h' ▸ hp
    · have hf : (lookupKey a "_id" == some (Value.oid oid)) = false := by
        rwa [Bool.not_eq_true] at hp
      rw [findOne_cons_neg rest hf] at h
      exact ih h

theorem findOne_some_id {d : Db} {oid : String} {doc : Doc}
    (h : findOne d oid = some doc) :
    lookupKey doc "_id" = some (.oid oid) := by
  have := findOne_some_pred h
  simpa using this

theorem findOne_some_mem {d : Db} {oid : String} {doc : Doc}
    (h : findOne d oid = some doc) : doc ∈ d := by
  unfold findOne at h
  exact List.mem_of_find?_eq_some h

theorem any_of_findOne_some {d : Db} {oid : String} {doc : Doc}
    (h : findOne d oid = some doc) :
    d.any (fun doc => lookupKey doc "_id" == some (.oid oid)) = true := by
  rw [List.any_eq_true]
  exact ⟨doc, findOne_some_mem h, findOne_some_pred h⟩

theorem findOne_updateFirst {d : Db} {oid : String} {old : Doc}
    (kvs : List (String × Value)) (h : findOne d oid = some old)
    (hkeys : "_id" ∉ kvs.map Prod.fst) :
    findOne (updateFirst d oid kvs) oid = some (setKeys old kvs) := by
  induction d with
  | nil => cases h
  | cons doc rest ih =>
    by_cases hp : (lookupKey doc "_id" == some (Value.oid oid)) = true
    · have h' : doc = old := by
        rw [findOne_cons_pos rest hp] at h
        exact Option.some.inj h
      subst h'
      have hpred : (lookupKey (setKeys doc kvs) "_id" == some (Value.oid oid)) = true := by
        rw [lookupKey_setKeys_not_mem _ _ _ hkeys]
        exact hp
      simp only [updateFirst, hp, if_true]
      exact findOne_cons_pos rest hpred
    · have hf : (lookupKey doc "_id" == some (Value.oid oid)) = false := by
        rwa [Bool.not_eq_true] at hp
      have h' : findOne rest oid = some old := by
        rwa [findOne_cons_neg rest hf] at h
      simp only [updateFirst, hf, Bool.false_eq_true, if_false]
      rw [findOne_cons_neg _ hf]
      exact ih h'

theorem findOne_append_fresh {d : Db} {oid : String} {nd : Doc}
    (hfresh : ∀ doc ∈ d, (lookupKey doc "_id" == some (Value.oid oid)) = false)
    (hnd : (lookupKey nd "_id" == some (Value.oid oid)) = true) :
    findOne (d ++ [nd]) oid = some nd := by
  induction d with
  | nil => simpa using findOne_cons_pos [] hnd
  | cons a rest ih =>
    have hf := hfresh a (List.mem_cons_self a rest)
    rw [List.cons_append, findOne_cons_neg _ hf]
    exact ih (fun doc hm => hfresh doc (List.mem_cons_of_mem a hm))

theorem countP_deleteFirst (d : Db) (oid : String)
    (h : d.any (fun doc => lookupKey doc "_id" == some (.oid oid)) = true) :
    (deleteFirst d oid).countP
        (fun doc => lookupKey doc "_id" == some (.oid oid)) =
      d.countP (fun doc => lookupKey doc "_id" == some (.oid oid)) - 1 := by
  induction d with
  | nil => cases h
  | cons doc rest ih =>
    by_cases hp : (lookupKey doc "_id" == some (Value.oid oid)) = true
    · simp [deleteFirst, hp, List.countP_cons]
    · have hf : (lookupKey doc "_id" == some (Value.oid oid)) = false := by
        rwa [Bool.not_eq_true] at hp
      have hrest : rest.any
          (fun doc => lookupKey doc "_id" == some (.oid oid)) = true := by
        rcases List.any_eq_true.mp h with ⟨x, hx, hpx⟩
        rcases List.mem_cons.mp hx with rfl | hx'
        · exact absurd hpx hp
        · exact List.any_eq_true.mpr ⟨x, hx', hpx⟩
      have hpos : 1 ≤ rest.countP
          (fun doc => lookupKey doc "_id" == some (.oid oid)) := by
        rcases List.any_eq_true.mp hrest with ⟨x, hx, hpx⟩
        calc 1 = [x].countP (fun doc => lookupKey doc "_id" == some (.oid oid)) := by
              simp [List.countP_cons, hpx]
          _ ≤ _ := by
              simpa using List.Sublist.countP_le _ ((List.singleton_sublist).mpr hx)
      simp only [deleteFirst, hf, Bool.false_eq_true, if_false]
      rw [List.countP_cons, List.countP_cons, ih hrest, hf]
      omega

/-! ## Regex and substring equivalence on metacharacter-free queries -/

theorem regexMatchAt_eq_isPrefixCI (pat : List Char)
    (h : ∀ c ∈ pat, regexMeta c = false) :
    ∀ s, regexMatchAt pat s = isPrefixCI pat s := by
  induction pat with
  | nil => intro s; cases s <;> rfl
  | cons p ps ih =>
    intro s
    have hp : regexMeta p = false := h p (List.mem_cons_self p ps)
    have hdot : ¬(p = '.') := by
      simp only [regexMeta, Bool.or_eq_false_iff, decide_eq_false_iff_not] at hp
      exact hp.1.1.1.1.1.1.1.1.1.1.1.1.1
    cases s with
    | nil => rfl
    | cons c cs =>
      simp only [regexMatchAt, isPrefixCI, regexCharMatch, hdot, decide_False,
        Bool.false_or]
      rw [ih (fun c hc => h c (List.mem_cons_of_mem p hc)) cs]

theorem regexSearch_eq_isSubstrCI (pat : List Char)
    (h : ∀ c ∈ pat, regexMeta c = false) :
    ∀ s, regexSearch pat s = isSubstrCI pat s := by
  intro s
  induction s with
  | nil =>
    simp only [regexSearch, isSubstrCI]
    exact regexMatchAt_eq_isPrefixCI pat h []
  | cons c cs ih =>
    simp only [regexSearch, isSubstrCI]
    rw [regexMatchAt_eq_isPrefixCI pat h, ih]

/-! ## Inversion lemmas for create-schema validation -/

theorem parseCreate_ok_fields {raw : List (String × Json)} {m : JobApplication}
    (h : parseCreate raw = .ok m) :
    vReqStr raw "company" = .ok m.company ∧
    vReqStr raw "position" = .ok m.position ∧
    vOptStr raw "location" = .ok m.location ∧
    vOptStr raw "job_link" = .ok m.job_link ∧
    vOptStr raw "source" = .ok m.source ∧
    vStrD raw "status" "applied" = .ok m.status ∧
    vDate raw "applied_date" = .ok m.applied_date ∧
    vDate raw "follow_up_date" = .ok m.follow_up_date ∧
    vSalary raw "salary_min" = .ok m.salary_min ∧
    vSalary raw "salary_max" = .ok m.salary_max ∧
    vOptStr raw "contact_name" = .ok m.contact_name ∧
    vOptStr raw "contact_email" = .ok m.contact_email ∧
    vOptStr raw "resume_version" = .ok m.resume_version ∧
    vOptStrD raw "priority" "medium" = .ok m.priority ∧
    vTags raw "tags" = .ok m.tags ∧
    vOptStr raw "notes" = .ok m.notes := by
  unfold parseCreate at h
  split at h
  · injection h with h
    subst h
    refine ⟨?_, ?_, ?_, ?_, ?_, ?_, ?_, ?_, ?_, ?_, ?_, ?_, ?_, ?_, ?_, ?_⟩ <;>
      assumption
  · cases h

theorem parseCreate_error_msg {raw : List (String × Json)} {e : String}
    (h : parseCreate raw = .error e) : e = "validation error" := by
  unfold parseCreate at h
  split at h
  · cases h
  · exact (Except.error.inj h).symm

theorem create_endpoint_error_of_not_ok {db : Option Db} {newOid : String}
    {raw : List (String × Json)} (h : ∀ m, parseCreate raw ≠ .ok m) :
    create_endpoint db newOid raw = (.error ⟨400, "validation error"⟩, db) := by
  unfold create_endpoint
  cases hp : parseCreate raw with
  | error e => rw [parseCreate_error_msg hp]
  | ok m => exact absurd hp (h m)

/-! ## Equivalence of the built filter with the spec-side predicate -/

theorem matchesFilter_eq_spec (status : Option String) (q : String)
    (hq : q ≠ "") (hmeta : ∀ c ∈ q.toList, regexMeta c = false)
    (hs : status ≠ some "") (doc : Doc) :
    matchesFilter (buildListFilter status (some q)) doc =
      specQueryMatches status q doc := by
  have hrw : regexSearch q.toList = isSubstrCI q.toList :=
    funext (regexSearch_eq_isSubstrCI q.toList hmeta)
  have hqif : (if q = "" then (none : Option String) else some q) = some q :=
    if_neg hq
  unfold matchesFilter buildListFilter specQueryMatches fieldRegexMatch substrCI
  cases status with
  | none => simp only [hrw, hqif]
  | some s =>
    have hs' : ¬(s = "") := fun he => hs (by rw [he])
    have hsif : (if s = "" then (none : Option String) else some s) = some s :=
      if_neg hs'
    simp only [hrw, hqif, hsif]

/-! ## Claim theorems -/

/-- C2: with a configured store, for every identifier (valid or not as an
ObjectId) and every update payload with zero fields set, the update fails
with HTTP 400 "No fields to update" and the store state is returned
unchanged: the failure occurs before any store operation is issued. -/
theorem C2_empty_update_rejected (d : Db) (now : Nat) (app_id : String)
    (p : UpdateJobApplication) (h : p.toDict = []) :
    update_application (some d) now app_id p =
      (.error ⟨400, "No fields to update"⟩, some d) := by
  unfold update_application
  rw [h]
  rfl

/-- Witness for C2 at a concrete input: an invalid identifier and the
all-unset payload. -/
theorem C2_witness :
    update_application (some [docAcme]) 0 "not-an-objectid" {} =
      (.error ⟨400, "No fields to update"⟩, some [docAcme]) :=
  C2_empty_update_rejected [docAcme] 0 "not-an-objectid" {} (by rfl)

/-- C9: the list operation fails with HTTP 500 when the store is not
configured; with a configured store it never fails (it returns a sequence of
at most `limit` documents, possibly empty); the result-count limit defaults
to 100 when not supplied. -/
theorem C9_list_failure_modes :
    (∀ status q limit, list_applications none status q limit =
        .error ⟨500, "Database not configured"⟩) ∧
    (∀ (d : Db) status q limit, ∃ xs,
        list_applications (some d) status q limit = .ok xs ∧
        xs.length ≤ limit) ∧
    (∀ (db : Option Db) status q,
        list_applications db status q = list_applications db status q 100) := by
  refine ⟨fun _ _ _ => rfl, fun d status q limit => ⟨_, rfl, ?_⟩,
    fun _ _ _ => rfl⟩
  simp only [get_documents, List.length_map, List.length_take]
  omega

/-- C10: every failure of the create handler carries HTTP 400 (the whole
insert-and-fetch step is wrapped in one exception-to-400 clause and no store
configuration check exists), including the unconfigured store, whose
`TypeError` message becomes the detail; create can never answer 500, while
list, update and delete all answer 500 on an unconfigured store. -/
theorem C10_create_error_mapping :
    (∀ (db : Option Db) (newOid : String) (m : JobApplication) (e : HTTPError),
        (create_application db newOid m).1 = .error e → e.status = 400) ∧
    (∀ (newOid : String) (m : JobApplication),
        (create_application none newOid m).1 =
          .error ⟨400, "NoneType object is not subscriptable"⟩) ∧
    (∀ (db : Option Db) (newOid : String) (m : JobApplication),
        createStatus db newOid m ≠ 500) ∧
    (∀ status q limit, listStatus none status q limit = 500) ∧
    (∀ now app_id p, updateStatus none now app_id p = 500) ∧
    (∀ app_id, deleteStatus none app_id = 500) := by
  have herr : ∀ (db : Option Db) (newOid : String) (m : JobApplication)
      (e : HTTPError),
      (create_application db newOid m).1 = .error e → e.status = 400 := by
    intro db newOid m e h
    cases db with
    | none =>
      simp only [create_application] at h
      injection h with h
      rw [← h]
    | some d =>
      cases hpo : parseObjectId newOid with
      | none =>
        simp only [create_application, create_document, hpo] at h
        injection h with h
        rw [← h]
      | some oid =>
        cases hfo : findOne (d ++ [("_id", Value.oid newOid) :: modelToDoc m]) oid with
        | none =>
          simp only [create_application, create_document, hpo, hfo] at h
          injection h with h
          rw [← h]
        | some doc =>
          simp only [create_application, create_document, hpo, hfo] at h
          cases h
  refine ⟨herr, fun newOid m => rfl, ?_, fun _ _ _ => rfl, fun _ _ _ => rfl,
    fun _ => rfl⟩
  intro db newOid m h500
  unfold createStatus at h500
  cases hr : (create_application db newOid m).1 with
  | ok doc => rw [hr] at h500; cases h500
  | error e =>
    rw [hr] at h500
    have h400 := herr db newOid m e hr
    simp only [h400] at h500 ⊢
    omega

/-- Witness for C10 at a concrete input: the unconfigured store. -/
theorem C10_witness :
    (HTTPError.mk 400 "NoneType object is not subscriptable").status = 400 :=
  C10_create_error_mapping.1 none "x" { company := "A", position := "B" } _ rfl

/-- C1 counterexample: sending company explicitly as null parses to exactly
the same update payload as omitting company, and the explicitly-null field
is not applied — after the update the stored company keeps its prior value,
so the operation does not distinguish "not sent" from "sent as null". -/
theorem C1_counterexample :
    parseUpdate [("company", Json.null), ("status", Json.str "interviewing")] =
      .ok { status := some "interviewing" } ∧
    parseUpdate [("status", Json.str "interviewing")] =
      .ok { status := some "interviewing" } ∧
    update_application (some [docAcme]) 0 oidA { status := some "interviewing" } =
      (.ok [("company", .str "Acme"), ("position", .str "Dev"),
            ("status", .str "interviewing"), ("tags", .arr []),
            ("updated_at", .str "1970-01-01T00:00:00"), ("id", .str oidA)],
       some [[("_id", .oid oidA), ("company", .str "Acme"),
              ("position", .str "Dev"), ("status", .str "interviewing"),
              ("tags", .arr []), ("updated_at", .dt 0)]]) := by
  refine ⟨by decide, by decide, by decide⟩

/-- C1 (amended): fields absent from the payload are treated as "do not
change", but a field explicitly sent as null is treated the same way — after
validation the two are the same unset representation — and the update
applies exactly the fields carrying non-null values, plus updated_at,
leaving every other key unchanged. -/
theorem C1_amended_null_is_unset :
    (∀ k ∈ updateFieldNames, parseUpdate [(k, Json.null)] = parseUpdate []) ∧
    (∀ (d : Db) (now : Nat) (app_id : String) (p : UpdateJobApplication)
        (oid : String) (old : Doc),
        parseObjectId app_id = some oid →
        p.toDict ≠ [] →
        findOne d oid = some old →
        update_application (some d) now app_id p =
          (.ok (to_public
            (setKeys old (p.toDict ++ [("updated_at", Value.dt now)]))),
           some (updateFirst d oid
            (p.toDict ++ [("updated_at", Value.dt now)]))) ∧
        (∀ kv ∈ p.toDict,
          lookupKey (setKeys old (p.toDict ++ [("updated_at", Value.dt now)]))
            kv.1 = some kv.2) ∧
        lookupKey (setKeys old (p.toDict ++ [("updated_at", Value.dt now)]))
          "updated_at" = some (Value.dt now) ∧
        (∀ k, k ∉ p.toDict.map Prod.fst → k ≠ "updated_at" →
          lookupKey (setKeys old (p.toDict ++ [("updated_at", Value.dt now)]))
            k = lookupKey old k)) := by
  constructor
  · decide
  · intro d now app_id p oid old hpo hne hfind
    have hemp : p.toDict.isEmpty = false :=
      Bool.eq_false_iff.mpr (fun h => hne (List.isEmpty_iff.mp h))
    have hkeys : "_id" ∉
        (p.toDict ++ [("updated_at", Value.dt now)]).map Prod.fst := by
      intro hmem
      rw [List.map_append, List.mem_append] at hmem
      rcases hmem with h | h
      · exact id_key_not_mem_toDict p h
      · simp at h
    have hupd := findOne_updateFirst
      (p.toDict ++ [("updated_at", Value.dt now)]) hfind hkeys
    have hany := any_of_findOne_some hfind
    have hnodup :
        ((p.toDict ++ [("updated_at", Value.dt now)]).map Prod.fst).Nodup := by
      rw [List.map_append]
      refine List.Nodup.append (toDict_keys_nodup p) (by simp) ?_
      intro a ha hb
      simp at hb
      exact updated_at_not_mem_toDict p (hb ▸ ha)
    refine ⟨?_, ?_, ?_, ?_⟩
    · simp only [update_application, hemp, Bool.false_eq_true, if_false, hpo,
        updateOne, hany, if_true, hupd]
    · intro kv hkv
      exact lookupKey_setKeys_mem old _ kv.1 kv.2 hnodup
        (by rw [Prod.mk.eta]; exact List.mem_append_left _ hkv)
    · exact lookupKey_setKeys_mem old _ "updated_at" (Value.dt now) hnodup
        (List.mem_append_right _ (List.mem_singleton.mpr rfl))
    · intro k h1 h2
      refine lookupKey_setKeys_not_mem old _ k ?_
      intro hmem
      rw [List.map_append, List.mem_append] at hmem
      rcases hmem with h | h
      · exact h1 h
      · simp at h
        exact h2 h

/-- Witness for C1 at a concrete input: the notes field sent as null. -/
theorem C1_witness :
    parseUpdate [("notes", Json.null)] = parseUpdate [] :=
  C1_amended_null_is_unset.1 "notes" (by decide)

/-- C3 counterexample: with query "x.z" the list operation returns the
document whose company is "xyz", although "x.z" does not occur as a
substring of any of its fields: the store evaluates the query as a regular
expression, in which the dot matches any character, not as a substring. -/
theorem C3_counterexample :
    list_applications (some [docXyz]) none (some "x.z") 100 =
      .ok [to_public docXyz] ∧
    specQueryMatches none "x.z" docXyz = false := by
  refine ⟨by decide, by decide⟩

/-- C3 (amended): the query is passed to the store as a case-insensitive
regular expression; for every query containing no regex metacharacter (on
which a regex search is a literal search) a document is returned iff the
query occurs case-insensitively as a substring of its company, position or
notes, or of some element of its tags — a logical OR across the four —
ANDed with exact equality on a non-empty status filter when supplied. -/
theorem C3_amended_regex_query (d : Db) (status : Option String) (q : String)
    (limit : Nat) (hq : q ≠ "") (hmeta : ∀ c ∈ q.toList, regexMeta c = false)
    (hs : status ≠ some "") :
    list_applications (some d) status (some q) limit =
      .ok (((d.filter (specQueryMatches status q)).take limit).map to_public) := by
  unfold list_applications get_documents
  rw [show matchesFilter (buildListFilter status (some q)) =
      specQueryMatches status q from
    funext (fun doc => matchesFilter_eq_spec status q hq hmeta hs doc)]

/-- Witness for C3 at a concrete input: the case-insensitive query "acme"
against the document whose company is "Acme". -/
theorem C3_witness :
    list_applications (some [docAcme]) none (some "acme") 100 =
      .ok ((([docAcme].filter (specQueryMatches none "acme")).take 100).map
        to_public) :=
  C3_amended_regex_query [docAcme] none "acme" 100 (by decide) (by decide)
    (by decide)

/-- C4: a successful update whose payload has exactly one field set produces
a stored document equal to the pre-update one with exactly that field
replaced by the supplied value and updated_at set to the current time
unconditionally; every other key is unchanged. -/
theorem C4_single_field_update_frame (d : Db) (now : Nat) (app_id : String)
    (p : UpdateJobApplication) (oid : String) (old : Doc) (k : String)
    (v : Value) (hpo : parseObjectId app_id = some oid)
    (hfind : findOne d oid = some old) (hone : p.toDict = [(k, v)]) :
    update_application (some d) now app_id p =
      (.ok (to_public (setKey (setKey old k v) "updated_at" (Value.dt now))),
       some (updateFirst d oid
        (p.toDict ++ [("updated_at", Value.dt now)]))) ∧
    lookupKey (setKey (setKey old k v) "updated_at" (Value.dt now)) k =
      some v ∧
    lookupKey (setKey (setKey old k v) "updated_at" (Value.dt now))
      "updated_at" = some (Value.dt now) ∧
    (∀ k', k' ≠ k → k' ≠ "updated_at" →
      lookupKey (setKey (setKey old k v) "updated_at" (Value.dt now)) k' =
        lookupKey old k') := by
  have hmemk : k ∈ updateFieldNames :=
    toDict_keys_mem p (by rw [hone]; simp)
  have hkua : k ≠ "updated_at" := by
    intro he
    rw [he] at hmemk
    revert hmemk
    decide
  have hkid : k ≠ "_id" := by
    intro he
    rw [he] at hmemk
    revert hmemk
    decide
  have hne : p.toDict ≠ [] := by rw [hone]; simp
  have hemp : p.toDict.isEmpty = false :=
    Bool.eq_false_iff.mpr (fun h => hne (List.isEmpty_iff.mp h))
  have hkeys : "_id" ∉
      (p.toDict ++ [("updated_at", Value.dt now)]).map Prod.fst := by
    rw [hone]
    intro hmem
    simp at hmem
    exact hkid hmem.symm
  have hupd := findOne_updateFirst
    (p.toDict ++ [("updated_at", Value.dt now)]) hfind hkeys
  have hany := any_of_findOne_some hfind
  have hsk : setKeys old (p.toDict ++ [("updated_at", Value.dt now)]) =
      setKey (setKey old k v) "updated_at" (Value.dt now) := by
    rw [hone]
    rfl
  refine ⟨?_, ?_, ?_, ?_⟩
  · simp only [update_application, hemp, Bool.false_eq_true, if_false, hpo,
      updateOne, hany, if_true, hupd, hsk]
  · rw [lookupKey_setKey_ne _ _ _ _ hkua, lookupKey_setKey_self]
  · rw [lookupKey_setKey_self]
  · intro k' h1 h2
    rw [lookupKey_setKey_ne _ _ _ _ h2, lookupKey_setKey_ne _ _ _ _ h1]

/-- Witness for C4 at a concrete input: updating only the status of the
stored Acme document leaves its company unchanged. -/
theorem C4_witness :
    lookupKey (setKey (setKey docAcme "status" (Value.str "interviewing"))
      "updated_at" (Value.dt 0)) "company" = lookupKey docAcme "company" :=
  (C4_single_field_update_frame [docAcme] 0 oidA
      { status := some "interviewing" } oidA docAcme "status"
      (.str "interviewing") (by decide) (by decide) (by decide)).2.2.2
    "company" (by decide) (by decide)

/-! ## Validator inversion helpers for the create schema -/

theorem vReqStr_ok_lookup {raw : List (String × Json)} {k s : String}
    (h : vReqStr raw k = .ok s) : lookupKey raw k = some (.str s) := by
  unfold vReqStr at h
  cases hl : lookupKey raw k with
  | none => rw [hl] at h; cases h
  | some j =>
    rw [hl] at h
    cases j with
    | str t => injection h with h; rw [h]
    | null => cases h
    | num n => cases h
    | bool b => cases h
    | arr xs => cases h

theorem vSalary_neg_not_ok {raw : List (String × Json)} {k : String} {n : Int}
    (hl : lookupKey raw k = some (.num n)) (hn : n < 0) :
    ∀ o, vSalary raw k ≠ .ok o := by
  intro o h
  unfold vSalary at h
  rw [hl] at h
  simp [not_le.mpr hn] at h

theorem vDate_bad_not_ok {raw : List (String × Json)} {k s : String}
    (hl : lookupKey raw k = some (.str s)) (hbad : isIsoDate s = false) :
    ∀ o, vDate raw k ≠ .ok o := by
  intro o h
  unfold vDate at h
  rw [hl] at h
  simp [hbad] at h

/-- C5 counterexample: a payload whose company is the empty string passes
validation and the create endpoint succeeds — company and position are
required to be present text, but non-emptiness is not enforced. -/
theorem C5_counterexample :
    parseCreate [("company", Json.str ""), ("position", Json.str "Engineer")] =
      .ok { company := "", position := "Engineer" } ∧
    create_endpoint (some []) oidA
        [("company", Json.str ""), ("position", Json.str "Engineer")] =
      (.ok (to_public (("_id", Value.oid oidA) ::
        modelToDoc { company := "", position := "Engineer" })),
       some [("_id", Value.oid oidA) ::
        modelToDoc { company := "", position := "Engineer" }]) := by
  refine ⟨by decide, by decide⟩

/-- C5 (amended): creation succeeds only when company and position are
present and are text (possibly empty — non-emptiness is not enforced); a
payload missing a required field, or whose salary is negative, or whose date
cannot be parsed, fails validation and the endpoint answers HTTP 400. -/
theorem C5_amended_create_validation :
    (∀ (raw : List (String × Json)) (m : JobApplication),
        parseCreate raw = .ok m →
        lookupKey raw "company" = some (.str m.company) ∧
        lookupKey raw "position" = some (.str m.position)) ∧
    (∀ (db : Option Db) (newOid : String) (raw : List (String × Json)),
        lookupKey raw "company" = none ∨ lookupKey raw "position" = none →
        create_endpoint db newOid raw =
          (.error ⟨400, "validation error"⟩, db)) ∧
    (∀ (db : Option Db) (newOid : String) (raw : List (String × Json))
        (n : Int),
        (lookupKey raw "salary_min" = some (.num n) ∨
         lookupKey raw "salary_max" = some (.num n)) → n < 0 →
        create_endpoint db newOid raw =
          (.error ⟨400, "validation error"⟩, db)) ∧
    (∀ (db : Option Db) (newOid : String) (raw : List (String × Json))
        (s : String),
        (lookupKey raw "applied_date" = some (.str s) ∨
         lookupKey raw "follow_up_date" = some (.str s)) →
        isIsoDate s = false →
        create_endpoint db newOid raw =
          (.error ⟨400, "validation error"⟩, db)) := by
  refine ⟨?_, ?_, ?_, ?_⟩
  · intro raw m h
    have hf := parseCreate_ok_fields h
    exact ⟨vReqStr_ok_lookup hf.1, vReqStr_ok_lookup hf.2.1⟩
  · intro db newOid raw hor
    apply create_endpoint_error_of_not_ok
    intro m hm
    have hf := parseCreate_ok_fields hm
    rcases hor with h | h
    · have hc := vReqStr_ok_lookup hf.1
      rw [h] at hc
      cases hc
    · have hc := vReqStr_ok_lookup hf.2.1
      rw [h] at hc
      cases hc
  · intro db newOid raw n hor hn
    apply create_endpoint_error_of_not_ok
    intro m hm
    have hf := parseCreate_ok_fields hm
    rcases hor with h | h
    · exact vSalary_neg_not_ok h hn _ hf.2.2.2.2.2.2.2.2.1
    · exact vSalary_neg_not_ok h hn _ hf.2.2.2.2.2.2.2.2.2.1
  · intro db newOid raw s hor hbad
    apply create_endpoint_error_of_not_ok
    intro m hm
    have hf := parseCreate_ok_fields hm
    rcases hor with h | h
    · exact vDate_bad_not_ok h hbad _ hf.2.2.2.2.2.2.1
    · exact vDate_bad_not_ok h hbad _ hf.2.2.2.2.2.2.2.1

/-- Witness for C5 at a concrete input: a well-formed create payload. -/
theorem C5_witness :
    lookupKey [("company", Json.str "Acme"), ("position", Json.str "Engineer")]
        "company" =
      some (.str (JobApplication.company
        { company := "Acme", position := "Engineer" })) :=
  (C5_amended_create_validation.1
    [("company", Json.str "Acme"), ("position", Json.str "Engineer")]
    { company := "Acme", position := "Engineer" } (by decide)).1

/-- C6: for every payload accepted by the create schema, the pydantic
defaults are applied — status "applied", priority "medium" and empty tags
when absent — the document is inserted with the store-assigned identifier,
and the full public-form document, carrying that identifier as text under
"id", is returned with HTTP 201. -/
theorem C6_create_defaults_and_response (raw : List (String × Json))
    (m : JobApplication) (d : Db) (newOid : String)
    (hok : parseCreate raw = .ok m)
    (hoid : parseObjectId newOid = some newOid)
    (hfresh : ∀ doc ∈ d,
      (lookupKey doc "_id" == some (Value.oid newOid)) = false) :
    (lookupKey raw "status" = none → m.status = "applied") ∧
    (lookupKey raw "priority" = none → m.priority = some "medium") ∧
    (lookupKey raw "tags" = none → m.tags = []) ∧
    create_application (some d) newOid m =
      (.ok (to_public (("_id", Value.oid newOid) :: modelToDoc m)),
       some (d ++ [("_id", Value.oid newOid) :: modelToDoc m])) ∧
    lookupKey (to_public (("_id", Value.oid newOid) :: modelToDoc m)) "id" =
      some (.str newOid) ∧
    createStatus (some d) newOid m = 201 := by
  have hf := parseCreate_ok_fields hok
  have hnd : (lookupKey (("_id", Value.oid newOid) :: modelToDoc m) "_id" ==
      some (Value.oid newOid)) = true := by
    simp [lookupKey]
  have hfind := findOne_append_fresh hfresh hnd
  have heq : create_application (some d) newOid m =
      (.ok (to_public (("_id", Value.oid newOid) :: modelToDoc m)),
       some (d ++ [("_id", Value.oid newOid) :: modelToDoc m])) := by
    simp only [create_application, create_document, hoid, hfind]
  refine ⟨?_, ?_, ?_, heq, ?_, ?_⟩
  · intro habs
    have hst := hf.2.2.2.2.2.1
    unfold vStrD at hst
    rw [habs] at hst
    exact (Except.ok.inj hst).symm
  · intro habs
    have hpr := hf.2.2.2.2.2.2.2.2.2.2.2.2.2.1
    unfold vOptStrD at hpr
    rw [habs] at hpr
    exact (Except.ok.inj hpr).symm
  · intro habs
    have htg := hf.2.2.2.2.2.2.2.2.2.2.2.2.2.2.1
    unfold vTags at htg
    rw [habs] at htg
    exact (Except.ok.inj htg).symm
  · exact (to_public_of_oid (show lookupKey
      (("_id", Value.oid newOid) :: modelToDoc m) "_id" =
        some (Value.oid newOid) by simp [lookupKey])).2.1
  · simp only [createStatus, heq]

/-- Witness for C6 at a concrete input: the minimal valid payload. -/
theorem C6_witness :
    createStatus (some []) oidA
      { company := "Acme", position := "Engineer" } = 201 :=
  (C6_create_defaults_and_response
    [("company", Json.str "Acme"), ("position", Json.str "Engineer")]
    { company := "Acme", position := "Engineer" } [] oidA (by decide)
    (by decide) (by decide)).2.2.2.2.2

/-- Well-formedness gives every stored document a non-empty ObjectId. -/
theorem wfDb_lookup {d : Db} (hwf : wfDb d = true) {doc : Doc}
    (hmem : doc ∈ d) :
    ∃ s, lookupKey doc "_id" = some (Value.oid s) ∧ s ≠ "" := by
  have hp := List.all_eq_true.mp hwf doc hmem
  cases hl : lookupKey doc "_id" with
  | none => rw [hl] at hp; cases hp
  | some v =>
    cases v with
    | oid s =>
      rw [hl] at hp
      exact ⟨s, rfl, by simpa using hp⟩
    | null => rw [hl] at hp; cases hp
    | str s => rw [hl] at hp; cases hp
    | num n => rw [hl] at hp; cases hp
    | dt t => rw [hl] at hp; cases hp
    | arr xs => rw [hl] at hp; cases hp

/-- C7: over a well-formed store, every document any endpoint returns —
each element of a list response, the body of a successful create, the body
of a successful update — is in public form: the internal `_id` key is gone,
the identifier is exposed as non-empty text under "id", and no raw datetime
value remains (timestamps are ISO text). -/
theorem C7_public_form_everywhere (d : Db) (hwf : wfDb d = true) :
    (∀ status q limit xs,
        list_applications (some d) status q limit = .ok xs →
        ∀ pd ∈ xs, isPublicB pd = true) ∧
    (∀ (newOid : String) (m : JobApplication) (body : Doc) (db' : Option Db),
        create_application (some d) newOid m = (.ok body, db') →
        isPublicB body = true) ∧
    (∀ (now : Nat) (app_id : String) (p : UpdateJobApplication) (body : Doc)
        (db' : Option Db),
        update_application (some d) now app_id p = (.ok body, db') →
        isPublicB body = true) := by
  refine ⟨?_, ?_, ?_⟩
  · intro status q limit xs hxs pd hpd
    simp only [list_applications] at hxs
    injection hxs with hxs
    subst hxs
    rcases List.mem_map.mp hpd with ⟨doc, hdoc, rfl⟩
    have hmem : doc ∈ d :=
      List.mem_of_mem_filter (List.mem_of_mem_take hdoc)
    rcases wfDb_lookup hwf hmem with ⟨s, hl, hs⟩
    exact isPublicB_to_public_of_oid hl hs
  · intro newOid m body db' h
    cases hpo : parseObjectId newOid with
    | none => simp [create_application, create_document, hpo] at h
    | some oid =>
      cases hfo : findOne (d ++ [("_id", Value.oid newOid) :: modelToDoc m])
          oid with
      | none => simp [create_application, create_document, hpo, hfo] at h
      | some doc =>
        simp [create_application, create_document, hpo, hfo,
          Prod.mk.injEq] at h
        obtain ⟨h1, h2⟩ := h
        subst h1
        exact isPublicB_to_public_of_oid (findOne_some_id hfo)
          (parseObjectId_ne_empty hpo)
  · intro now app_id p body db' h
    by_cases hemp : p.toDict.isEmpty = true
    · simp [update_application, hemp] at h
    · have hempf : p.toDict.isEmpty = false := by
        rwa [Bool.not_eq_true] at hemp
      cases hpo : parseObjectId app_id with
      | none => simp [update_application, hempf, hpo] at h
      | some oid =>
        cases huo : updateOne d oid
            (p.toDict ++ [("updated_at", Value.dt now)]) with
        | none => simp [update_application, hempf, hpo, huo] at h
        | some d' =>
          cases hfo : findOne d' oid with
          | none => simp [update_application, hempf, hpo, huo, hfo] at h
          | some doc =>
            simp [update_application, hempf, hpo, huo, hfo,
              Prod.mk.injEq] at h
            obtain ⟨h1, h2⟩ := h
            subst h1
            exact isPublicB_to_public_of_oid (findOne_some_id hfo)
              (parseObjectId_ne_empty hpo)

/-- Witness for C7 at a concrete input: the listed Acme document. -/
theorem C7_witness : isPublicB (to_public docAcme) = true :=
  (C7_public_form_everywhere [docAcme] (by decide)).1 none none 100
    [to_public docAcme] (by decide) (to_public docAcme) (by decide)

/-- C8 counterexample: with an empty store — so no stored document matches —
deleting with an identifier that is not a well-formed ObjectId answers HTTP
400 (the parsing exception is re-raised as 400), not the 404 the claim
requires for every identifier. -/
theorem C8_counterexample :
    delete_application (some []) "not-an-objectid" =
      (.error ⟨400, invalidOidMsg "not-an-objectid"⟩, some []) ∧
    (400 : Nat) ≠ 404 := by
  refine ⟨by decide, by decide⟩

/-- C8 (amended): for every identifier the ObjectId parser accepts, delete
answers 404 leaving the store unchanged when no document matches, and
otherwise removes the first matching document and answers 204 with no body;
when exactly one document matched, deleting twice yields success then 404.
Identifiers rejected by the parser answer 400 instead. -/
theorem C8_amended_delete_not_found (d : Db) (app_id : String) (oid : String)
    (hpo : parseObjectId app_id = some oid) :
    (d.any (fun doc => lookupKey doc "_id" == some (.oid oid)) = false →
      delete_application (some d) app_id =
        (.error ⟨404, "Application not found"⟩, some d)) ∧
    (d.any (fun doc => lookupKey doc "_id" == some (.oid oid)) = true →
      delete_application (some d) app_id =
        (.ok (), some (deleteFirst d oid)) ∧
      deleteStatus (some d) app_id = 204) ∧
    (d.countP (fun doc => lookupKey doc "_id" == some (.oid oid)) = 1 →
      d.any (fun doc => lookupKey doc "_id" == some (.oid oid)) = true →
      delete_application (some (deleteFirst d oid)) app_id =
        (.error ⟨404, "Application not found"⟩, some (deleteFirst d oid))) := by
  refine ⟨?_, ?_, ?_⟩
  · intro hany
    simp only [delete_application, hpo, hany, Bool.false_eq_true, if_false]
  · intro hany
    constructor
    · simp only [delete_application, hpo, hany, if_true]
    · simp only [deleteStatus, delete_application, hpo, hany, if_true]
  · intro hcount hany
    have h0 : (deleteFirst d oid).countP
        (fun doc => lookupKey doc "_id" == some (.oid oid)) = 0 := by
      rw [countP_deleteFirst d oid hany, hcount]
    have hnone : (deleteFirst d oid).any
        (fun doc => lookupKey doc "_id" == some (.oid oid)) = false :=
      List.any_eq_false.mpr (List.countP_eq_zero.mp h0)
    simp only [delete_application, hpo, hnone, Bool.false_eq_true, if_false]

/-- Witness for C8 at a concrete input: deleting the stored Acme document
succeeds with 204. -/
theorem C8_witness :
    delete_application (some [docAcme]) oidA =
      (.ok (), some (deleteFirst [docAcme] oidA)) ∧
    deleteStatus (some [docAcme]) oidA = 204 :=
  (C8_amended_delete_not_found [docAcme] oidA oidA (by decide)).2.1 (by decide)
